import Mathlib

/-!
Verification of the crawl orchestration service (src/app.py): the data
model (CrawlRequest, CrawlResult), the authentication gate
(verify_api_key), the crawl configuration and orchestration (crawl_url),
and the HTTP endpoint pipeline (crawl_endpoint).  The external fetch
collaborator (crawl4ai's AsyncWebCrawler.arun with an optional
BFSDeepCrawlStrategy) is not part of the repository's sources; it is
modelled from the spec's collaborator contract (fetch capability,
breadth-first traversal, domain-scope filter, deduplication, depth
ceiling).
-/

namespace Crawler

/-- A normalized absolute URL: scheme + host + path + query, the
normalization granularity the spec names for deduplication. -/
structure Url where
  scheme : String
  host : String
  path : String
  query : String
deriving DecidableEq, Repr

/-- Modelled from the spec: what the external fetch collaborator returns
for one page — its outbound links and its content converted to markdown
text (the spec's `fetch(url) -> {finalUrl, html, links[], renderedText}`
composed with `toText`). -/
structure Page where
  links : List Url
  markdown : String
deriving Repr

/-- Modelled from the spec: the external fetch collaborator as a partial
map from URLs to pages; `none` is a fetch failure (network error,
non-success status, render failure). -/
def FetchWorld : Type := Url → Option Page

/-- crawl4ai's CacheMode values (src/app.py line 5 imports it; line 39
sets BYPASS). -/
inductive CacheMode where
  | enabled
  | disabled
  | bypass
deriving DecidableEq, Repr

/-- The BFSDeepCrawlStrategy constructed at src/app.py lines 40-43: a
maximum depth and whether external (other-host) links are followed. -/
structure BFSDeepCrawlStrategy where
  max_depth : Int
  include_external : Bool
deriving DecidableEq, Repr

/-- The CrawlerRunConfig constructed at src/app.py lines 37-45. -/
structure CrawlerRunConfig where
  magic : Bool
  cache_mode : CacheMode
  deep_crawl_strategy : Option BFSDeepCrawlStrategy
  verbose : Bool
deriving DecidableEq, Repr

/-- The response model CrawlResult of src/app.py lines 31-33: a page's
URL and its markdown text. -/
structure CrawlResult where
  url : Url
  markdown : String
deriving DecidableEq, Repr

/-- The declared return shape of crawl_url and of the /crawl endpoint
(src/app.py lines 35 and 58): either a single CrawlResult object or a
list of them. -/
inductive CrawlOutcome where
  | single (r : CrawlResult)
  | list (rs : List CrawlResult)
deriving DecidableEq, Repr

/-- FastAPI's HTTPException as raised in src/app.py: a status code, a
detail string and response headers. -/
structure HTTPException where
  status_code : Nat
  detail : String
  headers : List (String × String)
deriving DecidableEq, Repr

/-- The pydantic request model of src/app.py lines 27-29: a validated
URL and an integer depth. -/
structure CrawlRequest where
  url : Url
  max_depth : Int
deriving DecidableEq, Repr

/-- Parsing/validation of the request body per the pydantic model
CrawlRequest (src/app.py lines 27-29): the `url` field must be a
well-formed absolute http URL (given here already parsed, `none` when
malformed or missing, which pydantic rejects with 422); `max_depth` is a
plain `int` with default value 1 and no range constraint. -/
def parseCrawlRequest (url : Option Url) (max_depth : Option Int) :
    Option CrawlRequest :=
  match url with
  | none => none
  | some u => some { url := u, max_depth := max_depth.getD 1 }

/-- verify_api_key of src/app.py lines 16-25: the secret is the
environment variable API_KEY, defaulting to "admin" when unset; a
presented credential not equal to it raises HTTPException 401 with
detail "Invalid API key" and header WWW-Authenticate: Bearer, else the
credential is returned. -/
def verify_api_key (api_key_env : Option String) (credentials : String) :
    Except HTTPException String :=
  let api_key := api_key_env.getD "admin"
  if credentials = api_key then
    Except.ok credentials
  else
    Except.error { status_code := 401, detail := "Invalid API key",
                   headers := [("WWW-Authenticate", "Bearer")] }

/-- Modelled from the spec: the transport-layer bearer extraction that
runs before verify_api_key (fastapi.security.HTTPBearer, src/app.py
line 14, not part of this repository).  The argument is the bearer
token extracted from the Authorization header, `none` when the header is
absent; HTTPBearer with auto_error rejects an absent header with status
403 and detail "Not authenticated" before the endpoint's own dependency
runs. -/
def httpBearer (bearer_token : Option String) : Except HTTPException String :=
  match bearer_token with
  | none => Except.error { status_code := 403, detail := "Not authenticated",
                           headers := [] }
  | some tok => Except.ok tok

/-- Modelled from the spec: the link graph induced by the fetch
collaborator — the outbound links of a page, empty when the page cannot
be fetched. -/
def graphOf (w : FetchWorld) : Url → List Url :=
  fun u =>
    match w u with
    | some p => p.links
    | none => []

/-- Modelled from the spec: link discovery for one fetched page of the
breadth-first deep-crawl strategy.  A discovered link becomes a depth
d+1 candidate only if its host equals the seed's host (unless external
links are included) and it was not already visited; first discovery
wins, and a discovered candidate is recorded as visited at once.
Returns the updated visited list and the newly enqueued links in
discovery order. -/
def discoverLinks (inclExt : Bool) (seedHost : String) (visited : List Url) :
    List Url → List Url × List Url
  | [] => (visited, [])
  | l :: ls =>
    if (l.host = seedHost ∨ inclExt = true) ∧ l ∉ visited then
      let r := discoverLinks inclExt seedHost (l :: visited) ls
      (r.1, l :: r.2)
    else
      discoverLinks inclExt seedHost visited ls

/-- Modelled from the spec: expanding one whole breadth-first level —
each page of the level contributes its discovered links in order, with
the visited set threaded through so that deduplication is global. -/
def expandLevel (g : Url → List Url) (inclExt : Bool) (seedHost : String)
    (visited : List Url) : List Url → List Url × List Url
  | [] => (visited, [])
  | u :: us =>
    let r1 := discoverLinks inclExt seedHost visited (g u)
    let r2 := expandLevel g inclExt seedHost r1.1 us
    (r2.1, r1.2 ++ r2.2)

/-- Modelled from the spec: the level-by-level breadth-first traversal.
`fuel` is the number of further levels that may still be discovered
(maxDepth minus the current depth); at fuel 0 the current level is
visited but its links are not followed, so no item with depth greater
than maxDepth is ever produced.  Produces the visit trace as (url,
depth-of-discovery) pairs in visit order. -/
def crawlLevels (g : Url → List Url) (inclExt : Bool) (seedHost : String) :
    Nat → List Url → List Url → Nat → List (Url × Nat)
  | 0, _, level, depth => level.map (fun u => (u, depth))
  | fuel + 1, visited, level, depth =>
    let e := expandLevel g inclExt seedHost visited level
    level.map (fun u => (u, depth)) ++
      crawlLevels g inclExt seedHost fuel e.1 e.2 (depth + 1)

/-- Modelled from the spec: the full breadth-first visit trace from a
seed — the seed is the sole depth-0 item and is visited from the start. -/
def bfsTrace (g : Url → List Url) (seed : Url) (inclExt : Bool)
    (maxDepth : Nat) : List (Url × Nat) :=
  crawlLevels g inclExt seed.host maxDepth [seed] [seed] 0

/-- Modelled from the spec: fetching a list of URLs in order, converting
each to a CrawlResult; the first fetch failure aborts the remainder and
the whole operation surfaces as an error (the orchestrator does not
return partial data).  The second component is the list of URLs for
which a fetch call was actually made, in order. -/
def fetchPages (w : FetchWorld) :
    List Url → Except String (List CrawlResult) × List Url
  | [] => (Except.ok [], [])
  | u :: us =>
    match w u with
    | none => (Except.error "fetch failed", [u])
    | some p =>
      let r := fetchPages w us
      ((match r.1 with
        | Except.ok rs =>
            Except.ok ({ url := u, markdown := p.markdown } :: rs)
        | Except.error e => Except.error e),
       u :: r.2)

/-- Modelled from the spec: AsyncWebCrawler.arun (src/app.py line 49,
external collaborator).  With no deep-crawl strategy it fetches the one
given URL; with a BFSDeepCrawlStrategy it visits the breadth-first trace
bounded by the strategy's max_depth, following external links only when
the strategy says so.  Returns the per-page results (or the error that
aborted the crawl) together with the list of fetch calls made. -/
def arun (w : FetchWorld) (url : Url) (config : CrawlerRunConfig) :
    Except String (List CrawlResult) × List Url :=
  match config.deep_crawl_strategy with
  | none => fetchPages w [url]
  | some strat =>
      fetchPages w
        ((bfsTrace (graphOf w) url strat.include_external
            strat.max_depth.toNat).map Prod.fst)

/-- The CrawlerRunConfig built at src/app.py lines 37-45: magic on,
cache bypassed, verbose on, and a BFSDeepCrawlStrategy with the given
max_depth and include_external=False exactly when max_depth > 0,
otherwise no deep-crawl strategy. -/
def buildConfig (max_depth : Int) : CrawlerRunConfig :=
  { magic := true
    cache_mode := CacheMode.bypass
    deep_crawl_strategy :=
      if max_depth > 0 then
        some { max_depth := max_depth, include_external := false }
      else
        none
    verbose := true }

/-- crawl_url of src/app.py lines 35-52: builds the config, runs the
crawler, and on success returns the list comprehension
`[CrawlResult(url=result.url, markdown=str(result._markdown)) for result
in results]` — always a list; any exception becomes HTTPException 500
with detail "Crawling failed: " followed by the exception text.  The
second component is the fetch-call log. -/
def crawl_url (w : FetchWorld) (url : Url) (max_depth : Int) :
    Except HTTPException CrawlOutcome × List Url :=
  match arun w url (buildConfig max_depth) with
  | (Except.ok results, log) => (Except.ok (CrawlOutcome.list results), log)
  | (Except.error e, log) =>
      (Except.error { status_code := 500, detail := "Crawling failed: " ++ e,
                      headers := [] }, log)

/-- The /crawl endpoint of src/app.py lines 58-68: the HTTPBearer
security dependency runs first, then verify_api_key, and only when both
succeed is crawl_url invoked with the request's url and max_depth.  The
second component is the fetch-call log (empty when authentication
fails, since crawl_url is never reached). -/
def crawl_endpoint (api_key_env : Option String) (w : FetchWorld)
    (bearer_token : Option String) (request : CrawlRequest) :
    Except HTTPException CrawlOutcome × List Url :=
  match httpBearer bearer_token with
  | Except.error e => (Except.error e, [])
  | Except.ok creds =>
    match verify_api_key api_key_env creds with
    | Except.error e => (Except.error e, [])
    | Except.ok _ => crawl_url w request.url request.max_depth

/-! Concrete example data used by witnesses and counterexamples. -/

/-- Example seed URL. -/
def exA : Url := { scheme := "https", host := "example.com", path := "/", query := "" }

/-- Example same-host child URL. -/
def exB : Url := { scheme := "https", host := "example.com", path := "/b", query := "" }

/-- Example external-host URL. -/
def exC : Url := { scheme := "https", host := "other.com", path := "/c", query := "" }

/-- Example world: the seed links to one same-host page and one external
page; the same-host page has no links; everything else fails to fetch. -/
def exWorld : FetchWorld := fun u =>
  if u = exA then some { links := [exB, exC], markdown := "A" }
  else if u = exB then some { links := [], markdown := "B" }
  else none

/-- A world in which every fetch fails. -/
def noWorld : FetchWorld := fun _ => none

/-- Example request with negative depth. -/
def exReqNeg : CrawlRequest := { url := exA, max_depth := -1 }

/-- Example request at depth 1. -/
def exReq : CrawlRequest := { url := exA, max_depth := 1 }

/-! Lemmas about link discovery. -/

theorem discoverLinks_visited_mono (inclExt : Bool) (s : String)
    (links : List Url) : ∀ (visited : List Url) (u : Url), u ∈ visited →
      u ∈ (discoverLinks inclExt s visited links).1 := by
  induction links with
  | nil => intro visited u hu; exact hu
  | cons l ls ih =>
    intro visited u hu
    simp only [discoverLinks]
    split
    · exact ih (l :: visited) u (List.mem_cons_of_mem _ hu)
    · exact ih visited u hu

theorem discoverLinks_new_not_visited (inclExt : Bool) (s : String)
    (links : List Url) : ∀ (visited : List Url) (u : Url),
      u ∈ (discoverLinks inclExt s visited links).2 → u ∉ visited := by
  induction links with
  | nil => intro visited u hu; cases hu
  | cons l ls ih =>
    intro visited u hu
    simp only [discoverLinks] at hu
    split at hu
    · rename_i hcond
      rcases List.mem_cons.mp hu with h | h
      · subst h; exact hcond.2
      · intro hv
        exact ih (l :: visited) u h (List.mem_cons_of_mem _ hv)
    · exact ih visited u hu

theorem discoverLinks_new_nodup (inclExt : Bool) (s : String)
    (links : List Url) : ∀ (visited : List Url),
      (discoverLinks inclExt s visited links).2.Nodup := by
  induction links with
  | nil => intro visited; exact List.nodup_nil
  | cons l ls ih =>
    intro visited
    simp only [discoverLinks]
    split
    · refine List.Nodup.cons ?_ (ih (l :: visited))
      intro hmem
      exact discoverLinks_new_not_visited inclExt s ls (l :: visited) l hmem
        (List.mem_cons_self _ _)
    · exact ih visited

theorem discoverLinks_new_subset (inclExt : Bool) (s : String)
    (links : List Url) : ∀ (visited : List Url) (u : Url),
      u ∈ (discoverLinks inclExt s visited links).2 →
      u ∈ (discoverLinks inclExt s visited links).1 := by
  induction links with
  | nil => intro visited u hu; cases hu
  | cons l ls ih =>
    intro visited u hu
    simp only [discoverLinks] at hu ⊢
    split at hu
    · rename_i hcond
      simp only [if_pos hcond]
      rcases List.mem_cons.mp hu with h | h
      · rw [h]
        exact discoverLinks_visited_mono inclExt s ls (l :: visited) l
          (List.mem_cons_self _ _)
      · exact ih (l :: visited) u h
    · rename_i hcond
      simp only [if_neg hcond]
      exact ih visited u hu

theorem discoverLinks_new_host (s : String) (links : List Url) :
    ∀ (visited : List Url) (u : Url),
      u ∈ (discoverLinks false s visited links).2 → u.host = s := by
  induction links with
  | nil => intro visited u hu; cases hu
  | cons l ls ih =>
    intro visited u hu
    simp only [discoverLinks] at hu
    split at hu
    · rename_i hcond
      rcases List.mem_cons.mp hu with h | h
      · subst h
        rcases hcond.1 with h1 | h1
        · exact h1
        · cases h1
      · exact ih (l :: visited) u h
    · exact ih visited u hu

/-! Lemmas about level expansion. -/

theorem expandLevel_visited_mono (g : Url → List Url) (inclExt : Bool)
    (s : String) (level : List Url) : ∀ (visited : List Url) (u : Url),
      u ∈ visited → u ∈ (expandLevel g inclExt s visited level).1 := by
  induction level with
  | nil => intro visited u hu; exact hu
  | cons x xs ih =>
    intro visited u hu
    simp only [expandLevel]
    exact ih _ u (discoverLinks_visited_mono inclExt s (g x) visited u hu)

theorem expandLevel_next_not_visited (g : Url → List Url) (inclExt : Bool)
    (s : String) (level : List Url) : ∀ (visited : List Url) (u : Url),
      u ∈ (expandLevel g inclExt s visited level).2 → u ∉ visited := by
  induction level with
  | nil => intro visited u hu; cases hu
  | cons x xs ih =>
    intro visited u hu
    simp only [expandLevel, List.mem_append] at hu
    rcases hu with h | h
    · exact discoverLinks_new_not_visited inclExt s (g x) visited u h
    · intro hv
      exact ih _ u h (discoverLinks_visited_mono inclExt s (g x) visited u hv)

theorem expandLevel_next_subset (g : Url → List Url) (inclExt : Bool)
    (s : String) (level : List Url) : ∀ (visited : List Url) (u : Url),
      u ∈ (expandLevel g inclExt s visited level).2 →
      u ∈ (expandLevel g inclExt s visited level).1 := by
  induction level with
  | nil => intro visited u hu; cases hu
  | cons x xs ih =>
    intro visited u hu
    simp only [expandLevel, List.mem_append] at hu ⊢
    rcases hu with h | h
    · exact expandLevel_visited_mono g inclExt s xs _ u
        (discoverLinks_new_subset inclExt s (g x) visited u h)
    · exact ih _ u h

theorem expandLevel_next_nodup (g : Url → List Url) (inclExt : Bool)
    (s : String) (level : List Url) : ∀ (visited : List Url),
      (expandLevel g inclExt s visited level).2.Nodup := by
  induction level with
  | nil => intro visited; exact List.nodup_nil
  | cons x xs ih =>
    intro visited
    simp only [expandLevel]
    refine List.Nodup.append (discoverLinks_new_nodup inclExt s (g x) visited)
      (ih _) ?_
    intro u hu1 hu2
    exact expandLevel_next_not_visited g inclExt s xs _ u hu2
      (discoverLinks_new_subset inclExt s (g x) visited u hu1)

theorem expandLevel_next_host (g : Url → List Url) (s : String)
    (level : List Url) : ∀ (visited : List Url) (u : Url),
      u ∈ (expandLevel g false s visited level).2 → u.host = s := by
  induction level with
  | nil => intro visited u hu; cases hu
  | cons x xs ih =>
    intro visited u hu
    simp only [expandLevel, List.mem_append] at hu
    rcases hu with h | h
    · exact discoverLinks_new_host s (g x) visited u h
    · exact ih _ u h

/-! Lemmas about the level-by-level traversal. -/

theorem mem_level_map_snd {l : List Url} {d : Nat} {p : Url × Nat}
    (hp : p ∈ l.map (fun u => (u, d))) : p.2 = d := by
  rcases List.mem_map.mp hp with ⟨u, _, hu⟩
  rw [← hu]

theorem mem_level_map_fst {l : List Url} {d : Nat} {p : Url × Nat}
    (hp : p ∈ l.map (fun u => (u, d))) : p.1 ∈ l := by
  rcases List.mem_map.mp hp with ⟨u, hu, hup⟩
  rw [← hup]
  exact hu

theorem level_map_fst (l : List Url) (d : Nat) :
    (l.map (fun u => (u, d))).map Prod.fst = l := by
  induction l with
  | nil => rfl
  | cons x xs ih => simp only [List.map_cons, ih]

theorem level_map_pairwise (l : List Url) (d : Nat) :
    (l.map (fun u => (u, d))).Pairwise
      (fun a b : Url × Nat => a.2 ≤ b.2) := by
  induction l with
  | nil => exact List.Pairwise.nil
  | cons x xs ih =>
    refine List.Pairwise.cons ?_ ih
    intro b hb
    rw [mem_level_map_snd hb]

theorem crawlLevels_depth_ge (g : Url → List Url) (inclExt : Bool)
    (s : String) (fuel : Nat) :
    ∀ (visited level : List Url) (depth : Nat) (p : Url × Nat),
      p ∈ crawlLevels g inclExt s fuel visited level depth → depth ≤ p.2 := by
  induction fuel with
  | zero =>
    intro visited level depth p hp
    simp only [crawlLevels] at hp
    rw [mem_level_map_snd hp]
  | succ n ih =>
    intro visited level depth p hp
    simp only [crawlLevels, List.mem_append] at hp
    rcases hp with h | h
    · rw [mem_level_map_snd h]
    · exact Nat.le_of_succ_le (ih _ _ (depth + 1) p h)

theorem crawlLevels_depth_le (g : Url → List Url) (inclExt : Bool)
    (s : String) (fuel : Nat) :
    ∀ (visited level : List Url) (depth : Nat) (p : Url × Nat),
      p ∈ crawlLevels g inclExt s fuel visited level depth →
      p.2 ≤ depth + fuel := by
  induction fuel with
  | zero =>
    intro visited level depth p hp
    simp only [crawlLevels] at hp
    rw [mem_level_map_snd hp]
    omega
  | succ n ih =>
    intro visited level depth p hp
    simp only [crawlLevels, List.mem_append] at hp
    rcases hp with h | h
    · rw [mem_level_map_snd h]; omega
    · have := ih _ _ (depth + 1) p h
      omega

theorem crawlLevels_pairwise (g : Url → List Url) (inclExt : Bool)
    (s : String) (fuel : Nat) :
    ∀ (visited level : List Url) (depth : Nat),
      (crawlLevels g inclExt s fuel visited level depth).Pairwise
        (fun a b : Url × Nat => a.2 ≤ b.2) := by
  induction fuel with
  | zero =>
    intro visited level depth
    simp only [crawlLevels]
    exact level_map_pairwise level depth
  | succ n ih =>
    intro visited level depth
    simp only [crawlLevels]
    refine List.pairwise_append.mpr
      ⟨level_map_pairwise level depth, ih _ _ (depth + 1), ?_⟩
    intro a ha b hb
    rw [mem_level_map_snd ha]
    exact Nat.le_of_succ_le (crawlLevels_depth_ge g inclExt s n _ _ _ b hb)

theorem crawlLevels_host (g : Url → List Url) (s : String) (fuel : Nat) :
    ∀ (visited level : List Url) (depth : Nat),
      (∀ u ∈ level, u.host = s) →
      ∀ p ∈ crawlLevels g false s fuel visited level depth, p.1.host = s := by
  induction fuel with
  | zero =>
    intro visited level depth hlev p hp
    simp only [crawlLevels] at hp
    exact hlev p.1 (mem_level_map_fst hp)
  | succ n ih =>
    intro visited level depth hlev p hp
    simp only [crawlLevels, List.mem_append] at hp
    rcases hp with h | h
    · exact hlev p.1 (mem_level_map_fst h)
    · exact ih _ _ (depth + 1)
        (fun u hu => expandLevel_next_host g s level visited u hu) p h

theorem crawlLevels_nodup (g : Url → List Url) (inclExt : Bool)
    (s : String) (fuel : Nat) :
    ∀ (visited level : List Url) (depth : Nat),
      level.Nodup → (∀ u ∈ level, u ∈ visited) →
      ((crawlLevels g inclExt s fuel visited level depth).map Prod.fst).Nodup ∧
      ∀ p ∈ crawlLevels g inclExt s fuel visited level depth,
        p.1 ∈ level ∨ p.1 ∉ visited := by
  induction fuel with
  | zero =>
    intro visited level depth hnd hsub
    constructor
    · simp only [crawlLevels, level_map_fst]
      exact hnd
    · intro p hp
      simp only [crawlLevels] at hp
      exact Or.inl (mem_level_map_fst hp)
  | succ n ih =>
    intro visited level depth hnd hsub
    have hnext_nd := expandLevel_next_nodup g inclExt s level visited
    have hnext_sub := expandLevel_next_subset g inclExt s level visited
    have hrec := ih (expandLevel g inclExt s visited level).1
      (expandLevel g inclExt s visited level).2 (depth + 1) hnext_nd
      (fun u hu => hnext_sub u hu)
    constructor
    · simp only [crawlLevels, List.map_append, level_map_fst]
      refine List.Nodup.append hnd hrec.1 ?_
      intro u hu1 hu2
      have hu_vis : u ∈ visited := hsub u hu1
      rcases List.mem_map.mp hu2 with ⟨p, hp, hpu⟩
      rw [← hpu] at hu_vis
      rcases hrec.2 p hp with h | h
      · exact expandLevel_next_not_visited g inclExt s level visited p.1 h
          hu_vis
      · exact h (expandLevel_visited_mono g inclExt s level visited p.1
          hu_vis)
    · intro p hp
      simp only [crawlLevels, List.mem_append] at hp
      rcases hp with h | h
      · exact Or.inl (mem_level_map_fst h)
      · rcases hrec.2 p h with h2 | h2
        · exact Or.inr (expandLevel_next_not_visited g inclExt s level
            visited p.1 h2)
        · refine Or.inr (fun hv => h2 ?_)
          exact expandLevel_visited_mono g inclExt s level visited p.1 hv

/-! Lemmas about the full breadth-first trace. -/

theorem bfsTrace_depth_le (g : Url → List Url) (seed : Url) (inclExt : Bool)
    (maxDepth : Nat) : ∀ p ∈ bfsTrace g seed inclExt maxDepth,
      p.2 ≤ maxDepth := by
  intro p hp
  have := crawlLevels_depth_le g inclExt seed.host maxDepth [seed] [seed] 0 p hp
  omega

theorem bfsTrace_pairwise (g : Url → List Url) (seed : Url) (inclExt : Bool)
    (maxDepth : Nat) : (bfsTrace g seed inclExt maxDepth).Pairwise
      (fun a b : Url × Nat => a.2 ≤ b.2) :=
  crawlLevels_pairwise g inclExt seed.host maxDepth [seed] [seed] 0

theorem bfsTrace_host (g : Url → List Url) (seed : Url) (maxDepth : Nat) :
    ∀ p ∈ bfsTrace g seed false maxDepth, p.1.host = seed.host := by
  intro p hp
  refine crawlLevels_host g seed.host maxDepth [seed] [seed] 0 ?_ p hp
  intro u hu
  rw [List.mem_singleton.mp hu]

theorem bfsTrace_nodup (g : Url → List Url) (seed : Url) (inclExt : Bool)
    (maxDepth : Nat) :
    ((bfsTrace g seed inclExt maxDepth).map Prod.fst).Nodup :=
  (crawlLevels_nodup g inclExt seed.host maxDepth [seed] [seed] 0
    (List.nodup_singleton seed) (fun _ hu => hu)).1

theorem bfsTrace_fst_cons (g : Url → List Url) (seed : Url) (inclExt : Bool)
    (maxDepth : Nat) :
    ∃ rest, (bfsTrace g seed inclExt maxDepth).map Prod.fst = seed :: rest := by
  unfold bfsTrace
  cases maxDepth with
  | zero => exact ⟨[], rfl⟩
  | succ n => exact ⟨_, rfl⟩

/-! Lemmas about fetching lists of pages. -/

theorem fetchPages_ok_urls (w : FetchWorld) :
    ∀ (us : List Url) (rs : List CrawlResult),
      (fetchPages w us).1 = Except.ok rs → rs.map CrawlResult.url = us := by
  intro us
  induction us with
  | nil =>
    intro rs h
    simp only [fetchPages] at h
    cases h
    rfl
  | cons u tail ih =>
    intro rs h
    cases hw : w u with
    | none => simp [fetchPages, hw] at h
    | some p =>
      cases hr : (fetchPages w tail).1 with
      | error e => simp [fetchPages, hw, hr] at h
      | ok rs' =>
        simp only [fetchPages, hw, hr] at h
        cases h
        simp only [List.map_cons, List.cons.injEq]
        exact ⟨trivial, ih rs' hr⟩

theorem fetchPages_head_fail (w : FetchWorld) (u : Url) (us : List Url)
    (h : w u = none) :
    (fetchPages w (u :: us)).1 = Except.error "fetch failed" := by
  simp [fetchPages, h]

theorem fetchPages_single_log (w : FetchWorld) (u : Url) :
    (fetchPages w [u]).2 = [u] := by
  cases hw : w u <;> simp [fetchPages, hw]

/-! Lemmas unpacking the configuration and the orchestrator. -/

theorem buildConfig_pos {d : Int} (hd : d > 0) :
    buildConfig d =
      { magic := true, cache_mode := CacheMode.bypass,
        deep_crawl_strategy :=
          some { max_depth := d, include_external := false },
        verbose := true } := by
  unfold buildConfig
  rw [if_pos hd]

theorem buildConfig_nonpos {d : Int} (hd : ¬ d > 0) :
    buildConfig d =
      { magic := true, cache_mode := CacheMode.bypass,
        deep_crawl_strategy := none, verbose := true } := by
  unfold buildConfig
  rw [if_neg hd]

theorem arun_single (w : FetchWorld) (url : Url) (config : CrawlerRunConfig)
    (h : config.deep_crawl_strategy = none) :
    arun w url config = fetchPages w [url] := by
  unfold arun
  rw [h]

theorem arun_deep (w : FetchWorld) (url : Url) (config : CrawlerRunConfig)
    (strat : BFSDeepCrawlStrategy) (h : config.deep_crawl_strategy = some strat) :
    arun w url config =
      fetchPages w ((bfsTrace (graphOf w) url strat.include_external
        strat.max_depth.toNat).map Prod.fst) := by
  unfold arun
  rw [h]

theorem buildConfig_strategy_nonpos {d : Int} (hd : ¬ d > 0) :
    (buildConfig d).deep_crawl_strategy = none := by
  rw [buildConfig_nonpos hd]

theorem buildConfig_strategy_pos {d : Int} (hd : d > 0) :
    (buildConfig d).deep_crawl_strategy =
      some { max_depth := d, include_external := false } := by
  rw [buildConfig_pos hd]

theorem crawl_url_fst (w : FetchWorld) (url : Url) (d : Int) :
    (crawl_url w url d).1 =
      match (arun w url (buildConfig d)).1 with
      | Except.ok results => Except.ok (CrawlOutcome.list results)
      | Except.error e =>
          Except.error
            { status_code := 500, detail := "Crawling failed: " ++ e,
              headers := [] } := by
  unfold crawl_url
  rcases arun w url (buildConfig d) with ⟨fst, snd⟩
  cases fst <;> rfl

theorem crawl_url_ok_results (w : FetchWorld) (url : Url) (d : Int)
    (rs : List CrawlResult)
    (h : (crawl_url w url d).1 = Except.ok (CrawlOutcome.list rs)) :
    (arun w url (buildConfig d)).1 = Except.ok rs := by
  rw [crawl_url_fst] at h
  cases ha : (arun w url (buildConfig d)).1 with
  | ok results =>
    rw [ha] at h
    simp only at h
    cases h
    rfl
  | error e =>
    rw [ha] at h
    exact Except.noConfusion h

theorem crawl_url_error (w : FetchWorld) (url : Url) (d : Int) (e : String)
    (ha : (arun w url (buildConfig d)).1 = Except.error e) :
    (crawl_url w url d).1 =
      Except.error { status_code := 500, detail := "Crawling failed: " ++ e,
                     headers := [] } := by
  rw [crawl_url_fst, ha]

theorem crawl_url_log (w : FetchWorld) (url : Url) (d : Int) :
    (crawl_url w url d).2 = (arun w url (buildConfig d)).2 := by
  unfold crawl_url
  rcases arun w url (buildConfig d) with ⟨fst, snd⟩
  cases fst <;> rfl

/-! The claims. -/

/-- C1 counterexample: at a concrete maxDepth = 0 request whose seed
fetch succeeds, crawl_url returns a ONE-ELEMENT LIST (the list
comprehension of src/app.py line 50 always builds a list), not the
unwrapped single PageResult the claim states. -/
theorem c1_counterexample :
    (crawl_url exWorld exA 0).1 =
      Except.ok (CrawlOutcome.list [{ url := exA, markdown := "A" }]) ∧
    (crawl_url exWorld exA 0).1 ≠
      Except.ok (CrawlOutcome.single { url := exA, markdown := "A" }) := by
  refine ⟨rfl, fun h => ?_⟩
  have h2 : CrawlOutcome.list [{ url := exA, markdown := "A" }] =
      CrawlOutcome.single { url := exA, markdown := "A" } :=
    Except.ok.inj h
  exact CrawlOutcome.noConfusion h2

/-- C1 (amended): for every maxDepth = 0 request whose seed fetch
succeeds, crawl_url returns a one-element sequence holding exactly one
PageResult whose url is the (normalized) seed URL — a list, not an
unwrapped object. -/
theorem c1_depth_zero_single_result (w : FetchWorld) (url : Url) (p : Page)
    (h : w url = some p) :
    (crawl_url w url 0).1 =
      Except.ok (CrawlOutcome.list [{ url := url, markdown := p.markdown }]) := by
  have h1 : arun w url (buildConfig 0) = fetchPages w [url] :=
    arun_single _ _ _ (buildConfig_strategy_nonpos (by omega))
  unfold crawl_url
  rw [h1]
  simp [fetchPages, h]

/-- C1 witness: the amended theorem applied to the concrete example
world at the seed URL. -/
theorem c1_witness :
    (crawl_url exWorld exA 0).1 =
      Except.ok (CrawlOutcome.list [{ url := exA, markdown := "A" }]) :=
  c1_depth_zero_single_result exWorld exA
    { links := [exB, exC], markdown := "A" } rfl

/-- C2 counterexample: a request with a MISSING bearer token is rejected
by the HTTPBearer security dependency with status 403 ("Not
authenticated") and no WWW-Authenticate header — not with the 401 the
claim states.  No fetch call is made. -/
theorem c2_counterexample :
    (crawl_endpoint none exWorld none exReq).1 =
      Except.error { status_code := 403, detail := "Not authenticated",
                     headers := [] } ∧
    (crawl_endpoint none exWorld none exReq).2 = [] :=
  ⟨rfl, rfl⟩

/-- C2 (amended): a request whose bearer token is absent is rejected
with 403 "Not authenticated" by the transport-layer HTTPBearer gate,
and a request whose presented token differs (exact, case-sensitive
string equality) from the configured secret is rejected with 401,
detail "Invalid API key" and header WWW-Authenticate: Bearer; in both
cases no fetch call is ever performed. -/
theorem c2_auth_failure_no_fetch (env : Option String) (w : FetchWorld)
    (auth : Option String) (req : CrawlRequest)
    (h : ∀ t, auth = some t → t ≠ env.getD "admin") :
    (auth = none →
      (crawl_endpoint env w auth req).1 =
        Except.error { status_code := 403, detail := "Not authenticated",
                       headers := [] }) ∧
    (∀ t, auth = some t →
      (crawl_endpoint env w auth req).1 =
        Except.error { status_code := 401, detail := "Invalid API key",
                       headers := [("WWW-Authenticate", "Bearer")] }) ∧
    (crawl_endpoint env w auth req).2 = [] := by
  cases auth with
  | none =>
    refine ⟨fun _ => rfl, ?_, rfl⟩
    intro t ht
    exact Option.noConfusion ht
  | some tok =>
    have hne : tok ≠ env.getD "admin" := h tok rfl
    have hrun : crawl_endpoint env w (some tok) req =
        (Except.error { status_code := 401, detail := "Invalid API key",
                        headers := [("WWW-Authenticate", "Bearer")] }, []) := by
      unfold crawl_endpoint httpBearer
      simp only [verify_api_key, if_neg hne]
    refine ⟨fun hc => Option.noConfusion hc, ?_, ?_⟩
    · intro t ht
      rw [hrun]
    · rw [hrun]

/-- C2 witness: the amended theorem applied at a concrete wrong token
("wrong" against the default secret "admin"). -/
theorem c2_witness :
    (crawl_endpoint none exWorld (some "wrong") exReq).1 =
      Except.error { status_code := 401, detail := "Invalid API key",
                     headers := [("WWW-Authenticate", "Bearer")] } ∧
    (crawl_endpoint none exWorld (some "wrong") exReq).2 = [] := by
  have hne : ∀ t, (some "wrong" : Option String) = some t →
      t ≠ (none : Option String).getD "admin" := by
    intro t ht
    cases ht
    decide
  have h := c2_auth_failure_no_fetch none exWorld (some "wrong") exReq hne
  exact ⟨h.2.1 "wrong" rfl, h.2.2⟩

/-- C3: for every request whose seed fetch fails, crawl_url fails as a
whole with a 500 HTTPException carrying a human-readable detail
("Crawling failed: ..."), and no partial list of page results is
returned (the outcome is the error, not an ok value). -/
theorem c3_seed_failure_500 (w : FetchWorld) (url : Url) (d : Int)
    (h : w url = none) :
    (crawl_url w url d).1 =
      Except.error
        { status_code := 500, detail := "Crawling failed: " ++ "fetch failed",
          headers := [] } := by
  by_cases hd : d > 0
  · obtain ⟨rest, hrest⟩ := bfsTrace_fst_cons (graphOf w) url false d.toNat
    refine crawl_url_error w url d "fetch failed" ?_
    rw [arun_deep w url (buildConfig d) _ (buildConfig_strategy_pos hd)]
    dsimp only
    rw [hrest]
    exact fetchPages_head_fail w url rest h
  · refine crawl_url_error w url d "fetch failed" ?_
    rw [arun_single w url (buildConfig d) (buildConfig_strategy_nonpos hd)]
    exact fetchPages_head_fail w url [] h

/-- C3 witness: the theorem applied to the world in which every fetch
fails, at depth 2. -/
theorem c3_witness :
    (crawl_url noWorld exA 2).1 =
      Except.error
        { status_code := 500, detail := "Crawling failed: " ++ "fetch failed",
          headers := [] } :=
  c3_seed_failure_500 noWorld exA 2 rfl

/-- C4 counterexample: a request body with max_depth = -1 passes
validation (the pydantic field is a plain int with no constraint), and
the authorized endpoint then performs a fetch of the seed — the claim's
"rejected before any fetch attempt" is false. -/
theorem c4_counterexample :
    parseCrawlRequest (some exA) (some (-1)) =
      some { url := exA, max_depth := -1 } ∧
    (crawl_endpoint none exWorld (some "admin")
      { url := exA, max_depth := -1 }).2 = [exA] :=
  ⟨rfl, rfl⟩

/-- C4 (amended): a negative max_depth is NOT rejected by input
validation: the parsed request carries the negative value, and
crawl_url then performs exactly one fetch call, of the seed URL
(a single-page crawl, no deep-crawl strategy). -/
theorem c4_negative_depth_not_rejected (u : Url) (d : Int) (w : FetchWorld)
    (hd : d < 0) :
    parseCrawlRequest (some u) (some d) = some { url := u, max_depth := d } ∧
    (crawl_url w u d).2 = [u] := by
  refine ⟨rfl, ?_⟩
  rw [crawl_url_log,
    arun_single w u (buildConfig d) (buildConfig_strategy_nonpos (by omega))]
  exact fetchPages_single_log w u

/-- C4 witness: the amended theorem at depth -2 in the example world. -/
theorem c4_witness :
    parseCrawlRequest (some exA) (some (-2)) =
      some { url := exA, max_depth := -2 } ∧
    (crawl_url exWorld exA (-2)).2 = [exA] :=
  c4_negative_depth_not_rejected exA (-2) exWorld (by decide)

/-- C5: for every maxDepth > 0 request that succeeds, the returned
results are exactly the pages of the breadth-first trace in visit
order; every trace item's depth-of-discovery is at most maxDepth, and
the trace's depths are non-decreasing (no depth-(d+1) item appears
before a depth-d item). -/
theorem c5_bfs_depth_and_order (w : FetchWorld) (url : Url) (d : Int)
    (rs : List CrawlResult) (hd : d > 0)
    (h : (crawl_url w url d).1 = Except.ok (CrawlOutcome.list rs)) :
    rs.map CrawlResult.url =
      (bfsTrace (graphOf w) url false d.toNat).map Prod.fst ∧
    (∀ p ∈ bfsTrace (graphOf w) url false d.toNat, p.2 ≤ d.toNat) ∧
    (bfsTrace (graphOf w) url false d.toNat).Pairwise
      (fun a b : Url × Nat => a.2 ≤ b.2) := by
  have ha := crawl_url_ok_results w url d rs h
  rw [arun_deep w url (buildConfig d) _ (buildConfig_strategy_pos hd)] at ha
  dsimp only at ha
  exact ⟨fetchPages_ok_urls w _ rs ha, bfsTrace_depth_le _ _ _ _,
    bfsTrace_pairwise _ _ _ _⟩

/-- C5 witness: the theorem at the concrete example world, depth 1. -/
theorem c5_witness :
    ([{ url := exA, markdown := "A" },
      { url := exB, markdown := "B" }].map CrawlResult.url) =
      (bfsTrace (graphOf exWorld) exA false (1 : Int).toNat).map Prod.fst ∧
    (∀ p ∈ bfsTrace (graphOf exWorld) exA false (1 : Int).toNat,
      p.2 ≤ (1 : Int).toNat) ∧
    (bfsTrace (graphOf exWorld) exA false (1 : Int).toNat).Pairwise
      (fun a b : Url × Nat => a.2 ≤ b.2) :=
  c5_bfs_depth_and_order exWorld exA 1
    [{ url := exA, markdown := "A" }, { url := exB, markdown := "B" }]
    (by decide) rfl

/-- C6: for every request that succeeds, every returned PageResult's URL
has the same host as the seed URL (the domain-scope filter excludes
external hosts before enqueueing). -/
theorem c6_same_host (w : FetchWorld) (url : Url) (d : Int)
    (rs : List CrawlResult)
    (h : (crawl_url w url d).1 = Except.ok (CrawlOutcome.list rs)) :
    ∀ r ∈ rs, r.url.host = url.host := by
  intro r hr
  have ha := crawl_url_ok_results w url d rs h
  by_cases hd : d > 0
  · rw [arun_deep w url (buildConfig d) _ (buildConfig_strategy_pos hd)] at ha
    dsimp only at ha
    have hmap := fetchPages_ok_urls w _ rs ha
    have hmem : r.url ∈ (bfsTrace (graphOf w) url false d.toNat).map Prod.fst := by
      rw [← hmap]
      exact List.mem_map_of_mem _ hr
    rcases List.mem_map.mp hmem with ⟨p, hp, hpu⟩
    rw [← hpu]
    exact bfsTrace_host (graphOf w) url d.toNat p hp
  · rw [arun_single w url (buildConfig d) (buildConfig_strategy_nonpos hd)] at ha
    have hmap := fetchPages_ok_urls w _ rs ha
    have hmem : r.url ∈ ([url] : List Url) := by
      rw [← hmap]
      exact List.mem_map_of_mem _ hr
    rw [List.mem_singleton.mp hmem]

/-- C6 witness: the theorem at the concrete example world: the depth-1
child's URL has the seed's host. -/
theorem c6_witness :
    ({ url := exB, markdown := "B" } : CrawlResult).url.host = exA.host :=
  c6_same_host exWorld exA 1
    [{ url := exA, markdown := "A" }, { url := exB, markdown := "B" }] rfl
    { url := exB, markdown := "B" } (by decide)

/-- C7: for every request that succeeds, no URL appears twice in the
returned sequence: visited URLs are deduplicated by exact equality of
the normalized URL, first discovery wins. -/
theorem c7_no_duplicate_urls (w : FetchWorld) (url : Url) (d : Int)
    (rs : List CrawlResult)
    (h : (crawl_url w url d).1 = Except.ok (CrawlOutcome.list rs)) :
    (rs.map CrawlResult.url).Nodup := by
  have ha := crawl_url_ok_results w url d rs h
  by_cases hd : d > 0
  · rw [arun_deep w url (buildConfig d) _ (buildConfig_strategy_pos hd)] at ha
    dsimp only at ha
    rw [fetchPages_ok_urls w _ rs ha]
    exact bfsTrace_nodup _ _ _ _
  · rw [arun_single w url (buildConfig d) (buildConfig_strategy_nonpos hd)] at ha
    rw [fetchPages_ok_urls w _ rs ha]
    exact List.nodup_singleton url

/-- C7 witness: the theorem at the concrete example world, depth 1. -/
theorem c7_witness :
    ([{ url := exA, markdown := "A" },
      { url := exB, markdown := "B" }].map CrawlResult.url).Nodup :=
  c7_no_duplicate_urls exWorld exA 1
    [{ url := exA, markdown := "A" }, { url := exB, markdown := "B" }] rfl

/-- C8: the bearer comparison authorizes exactly the token equal to the
environment-sourced secret, with the well-known default "admin" used
when the environment value is unset — so the token "admin" is
authorized under an unset environment. -/
theorem c8_default_secret :
    (∀ (env : Option String) (tok : String),
      verify_api_key env tok = Except.ok tok ↔ tok = env.getD "admin") ∧
    verify_api_key none "admin" = Except.ok "admin" := by
  refine ⟨?_, rfl⟩
  intro env tok
  constructor
  · intro h
    by_cases he : tok = env.getD "admin"
    · exact he
    · simp only [verify_api_key, if_neg he] at h
      exact Except.noConfusion h
  · intro he
    simp only [verify_api_key, if_pos he]

/-- C9: a request body that supplies a url but omits max_depth parses
to max_depth = 1 (the declared pydantic default), and depth 1 builds a
configuration with a deep-crawl strategy (a depth-1 deep crawl). -/
theorem c9_default_depth_one :
    (∀ u : Url, parseCrawlRequest (some u) none =
      some { url := u, max_depth := 1 }) ∧
    (buildConfig 1).deep_crawl_strategy =
      some { max_depth := 1, include_external := false } :=
  ⟨fun _ => rfl, rfl⟩

/-- C10: for every negative max_depth, crawl_url builds the same
configuration as max_depth = 0 (no deep-crawl strategy), the request
passes input validation carrying the negative value, and exactly one
fetch call is made, of the seed URL. -/
theorem c10_negative_depth_single_page (w : FetchWorld) (u : Url) (d : Int)
    (hd : d < 0) :
    buildConfig d = buildConfig 0 ∧
    parseCrawlRequest (some u) (some d) = some { url := u, max_depth := d } ∧
    (crawl_url w u d).2 = [u] := by
  refine ⟨?_, rfl, ?_⟩
  · rw [buildConfig_nonpos (show ¬ d > 0 by omega),
      buildConfig_nonpos (show ¬ (0 : Int) > 0 by omega)]
  · rw [crawl_url_log,
      arun_single w u (buildConfig d) (buildConfig_strategy_nonpos (by omega))]
    exact fetchPages_single_log w u

/-- C10 witness: the theorem at depth -3 in the example world. -/
theorem c10_witness :
    buildConfig (-3) = buildConfig 0 ∧
    parseCrawlRequest (some exB) (some (-3)) =
      some { url := exB, max_depth := -3 } ∧
    (crawl_url exWorld exB (-3)).2 = [exB] :=
  c10_negative_depth_single_page exWorld exB (-3) (by decide)

end Crawler
